import Mathlib

/-!
Verification of the SHO initial-guess estimator from `examples/plot_process.py`
(`ShoGuess.sho_function`, `ShoGuess._unit_function`, `ShoGuess.sho_fast_guess`).

The numeric code is embedded shallowly over the real and complex numbers:
vectors become lists, complex responses become `ℂ`, and every operation that
can raise at runtime (out-of-range indexing, numpy broadcast mismatch,
`np.min`/`np.max` of an empty array) is modelled in the `Option` monad, with
`none` standing for a raised exception.
-/

noncomputable section

open Classical

/-- `np.mean` of a real vector (population mean). -/
def npMean (l : List ℝ) : ℝ := l.sum / l.length

/-- `np.std` of a real vector: population standard deviation. -/
def npStd (l : List ℝ) : ℝ :=
  Real.sqrt (npMean (l.map (fun x => (x - npMean l) ^ 2)))

/-- `np.min`; raises on an empty array. -/
def npMin : List ℝ → Option ℝ
  | [] => none
  | x :: xs => some (xs.foldl min x)

/-- `np.max`; raises on an empty array. -/
def npMax : List ℝ → Option ℝ
  | [] => none
  | x :: xs => some (xs.foldl max x)

/-- `np.linspace a b n`: `n` evenly spaced points from `a` to `b` inclusive. -/
def linspace (a b : ℝ) (n : ℕ) : List ℝ :=
  if n = 1 then [a]
  else (List.range n).map (fun i => a + (b - a) * i / ((n : ℝ) - 1))

/-- Elementwise subtraction of real vectors with numpy length-1 broadcasting;
`none` models the broadcast `ValueError` on incompatible shapes. -/
def bsub (xs ys : List ℝ) : Option (List ℝ) :=
  if xs.length = ys.length then some (List.zipWith (fun x y => x - y) xs ys)
  else if xs.length = 1 then some (ys.map (fun y => xs.headI - y))
  else if ys.length = 1 then some (xs.map (fun x => x - ys.headI))
  else none

/-- Elementwise subtraction of complex vectors with numpy length-1 broadcasting. -/
def bsubC (xs ys : List ℂ) : Option (List ℂ) :=
  if xs.length = ys.length then some (List.zipWith (fun x y => x - y) xs ys)
  else if xs.length = 1 then some (ys.map (fun y => xs.headI - y))
  else if ys.length = 1 then some (xs.map (fun x => x - ys.headI))
  else none

/-- `sum(l**2)`. -/
def sumSq (l : List ℝ) : ℝ := (l.map (fun x => x ^ 2)).sum

/-- `ShoGuess.sho_function`: the SHO response at one frequency,
`parms = (Amplitude, frequency, Quality factor, phase)`:
`parms[0] * exp(1j*parms[3]) * parms[1]**2 / (w**2 - 1j*w*parms[1]/parms[2] - parms[1]**2)`. -/
def sho_function (parms : ℝ × ℝ × ℝ × ℝ) (w : ℝ) : ℂ :=
  (parms.1 : ℂ) * Complex.exp (Complex.I * (parms.2.2.2 : ℝ)) * (parms.2.1 : ℂ) ^ 2 /
    ((w : ℂ) ^ 2 - Complex.I * (w : ℂ) * (parms.2.1 : ℂ) / (parms.2.2.1 : ℂ) -
      (parms.2.1 : ℂ) ^ 2)

/-- `sho_function` applied over a frequency vector (numpy broadcasting). -/
def sho_function_vec (parms : ℝ × ℝ × ℝ × ℝ) (w_vec : List ℝ) : List ℂ :=
  w_vec.map (sho_function parms)

/-- Result record of the guess routines: `[amplitude, frequency, quality factor,
phase]`.  The frequency slot is complex because one call site of
`sho_fast_guess` passes the complex response vector where the frequency vector
is expected, so a complex value can land in that slot. -/
structure SHOParams where
  amplitude : ℝ
  frequency : ℂ
  quality_factor : ℝ
  phase : ℝ

/-- The constant default of `sho_fast_guess`'s `qual_factor` parameter. -/
def qual_factor_default : ℝ := 200

/-- `ShoGuess.sho_fast_guess resp_vec w_vec qual_factor`:
amplitude `mean(abs(resp_vec))/qual_factor`, frequency `w_vec[len(resp_vec)//2]`,
quality factor `qual_factor`, phase `angle(resp_vec[len(resp_vec)//2])`.
`none` models the `IndexError` when the midpoint index is out of range. -/
def sho_fast_guess (resp_vec : List ℂ) (w_vec : List ℂ) (qual_factor : ℝ) :
    Option SHOParams :=
  let amp_vec := resp_vec.map Complex.abs
  let i_max := resp_vec.length / 2
  match w_vec.get? i_max, resp_vec.get? i_max with
  | some wm, some rm =>
      some ⟨npMean amp_vec / qual_factor, wm, qual_factor, Complex.arg rm⟩
  | _, _ => none

/-- Stable insertion of index `i` into an index list sorted ascending by `key`. -/
def insertByKey (key : ℕ → ℝ) (i : ℕ) : List ℕ → List ℕ
  | [] => [i]
  | j :: rest => if key i < key j then i :: j :: rest else j :: insertByKey key i rest

/-- Indices `0..n-1` sorted ascending by `key` (models `np.argsort`). -/
def argsortKey (key : ℕ → ℝ) (n : ℕ) : List ℕ :=
  (List.range n).foldl (fun acc i => insertByKey key i acc) []

/-- Sort key of `_unit_function`: the response magnitude at an index. -/
def respKey (resp_vec : List ℂ) (k : ℕ) : ℝ := Complex.abs (resp_vec.getD k 0)

/-- `ii = np.argsort(abs(resp_vec))[::-1]`: indices by descending magnitude. -/
def sortIdx (resp_vec : List ℂ) : List ℕ :=
  (argsortKey (respKey resp_vec) resp_vec.length).reverse

/-- The data read for one candidate pair `(c1, c2)`:
`w1, w2 = w_vec[ii[c1]], w_vec[ii[c2]]` and the real/imaginary parts
`X1, X2, Y1, Y2` of the response there; `none` models an `IndexError`. -/
structure PairData where
  w1 : ℝ
  w2 : ℝ
  X1 : ℝ
  X2 : ℝ
  Y1 : ℝ
  Y2 : ℝ

/-- Reads the per-pair data (lines `w1 = ...` through `Y2 = ...`). -/
def pairData (resp_vec : List ℂ) (w_vec : List ℝ) (ii : List ℕ) (c1 c2 : ℕ) :
    Option PairData := do
  let i1 ← ii.get? c1
  let i2 ← ii.get? c2
  let w1 ← w_vec.get? i1
  let w2 ← w_vec.get? i2
  let r1 ← resp_vec.get? i1
  let r2 ← resp_vec.get? i2
  pure ⟨w1, w2, r1.re, r2.re, r1.im, r2.im⟩

/-- The `denom` expression of `_unit_function`. -/
def pairDenom (p : PairData) : ℝ :=
  p.w1 * (p.X1 ^ 2 - p.X1 * p.X2 + p.Y1 * (p.Y1 - p.Y2)) +
    p.w2 * (-(p.X1 * p.X2) + p.X2 ^ 2 - p.Y1 * p.Y2 + p.Y2 ^ 2)

/-- The closed-form coefficients `(a, b, c, d)` of one candidate pair. -/
def pairCoeffs (p : PairData) : ℝ × ℝ × ℝ × ℝ :=
  (((p.w1 ^ 2 - p.w2 ^ 2) *
      (p.w1 * p.X2 * (p.X1 ^ 2 + p.Y1 ^ 2) - p.w2 * p.X1 * (p.X2 ^ 2 + p.Y2 ^ 2))) /
      pairDenom p,
   ((p.w1 ^ 2 - p.w2 ^ 2) *
      (p.w1 * p.Y2 * (p.X1 ^ 2 + p.Y1 ^ 2) - p.w2 * p.Y1 * (p.X2 ^ 2 + p.Y2 ^ 2))) /
      pairDenom p,
   ((p.w1 ^ 2 - p.w2 ^ 2) * (p.X2 * p.Y1 - p.X1 * p.Y2)) / pairDenom p,
   (p.w1 ^ 3 * (p.X1 ^ 2 + p.Y1 ^ 2) - p.w1 ^ 2 * p.w2 * (p.X1 * p.X2 + p.Y1 * p.Y2) -
      p.w1 * p.w2 ^ 2 * (p.X1 * p.X2 + p.Y1 * p.Y2) + p.w2 ^ 3 * (p.X2 ^ 2 + p.Y2 ^ 2)) /
      pairDenom p)

/-- `A_fit = abs(a + 1j*b) / d`. -/
def fitA (a b d : ℝ) : ℝ := Complex.abs ⟨a, b⟩ / d

/-- `w0_fit = sqrt(d)`. -/
def fitW0 (d : ℝ) : ℝ := Real.sqrt d

/-- `Q_fit = -sqrt(d) / c`. -/
def fitQ (c d : ℝ) : ℝ := -Real.sqrt d / c

/-- `phi_fit = arctan2(-b, -a)`. -/
def fitPhi (a b : ℝ) : ℝ := Complex.arg ⟨-a, -b⟩

/-- The reconstructed response
`A_fit * w0_fit**2 * exp(1j*phi_fit) / (w**2 - 1j*w*w0_fit/Q_fit - w0_fit**2)`
at one frequency (lines building `H_fit`). -/
def hFun (A_fit w0_fit Q_fit phi_fit : ℝ) (w : ℝ) : ℂ :=
  (A_fit : ℂ) * (w0_fit : ℂ) ^ 2 * Complex.exp (Complex.I * (phi_fit : ℝ)) /
    ((w : ℂ) ^ 2 - Complex.I * (w : ℂ) * (w0_fit : ℂ) / (Q_fit : ℂ) - (w0_fit : ℂ) ^ 2)

/-- The residual score of a candidate:
`sum((real(H_fit) - real(resp_vec))**2) + sum((imag(H_fit) - imag(resp_vec))**2)`. -/
def candErr (resp_vec : List ℂ) (w_vec : List ℝ) (a b c d : ℝ) : Option ℝ := do
  let Hf := w_vec.map (hFun (fitA a b d) (fitW0 d) (fitQ c d) (fitPhi a b))
  let dre ← bsub (Hf.map Complex.re) (resp_vec.map Complex.re)
  let dimg ← bsub (Hf.map Complex.im) (resp_vec.map Complex.im)
  pure (sumSq dre + sumSq dimg)

/-- The pairs `(c1, c2)` visited by the nested loops
`for c1 in range(num_points): for c2 in range(c1+1, num_points):`. -/
def pairIdxList (num_points : ℕ) : List (ℕ × ℕ) :=
  (List.range num_points).flatMap (fun c1 =>
    ((List.range num_points).drop (c1 + 1)).map (fun c2 => (c1, c2)))

/-- One iteration of the candidate loop: read the pair, skip it unless
`denom > 0` and `d > 0`, otherwise append the coefficients and the residual. -/
def pairStep (resp_vec : List ℂ) (w_vec : List ℝ) (ii : List ℕ)
    (acc : List (ℝ × ℝ × ℝ × ℝ) × List ℝ) (p : ℕ × ℕ) :
    Option (List (ℝ × ℝ × ℝ × ℝ) × List ℝ) := do
  let pd ← pairData resp_vec w_vec ii p.1 p.2
  if 0 < pairDenom pd then
    let q := pairCoeffs pd
    if 0 < q.2.2.2 then
      let e ← candErr resp_vec w_vec q.1 q.2.1 q.2.2.1 q.2.2.2
      pure (acc.1 ++ [q], acc.2 ++ [e])
    else pure acc
  else pure acc

/-- The whole candidate loop: `a_mat` (as a list of `(a,b,c,d)` rows) and `e_vec`. -/
def aMatEVec (resp_vec : List ℂ) (w_vec : List ℝ) (ii : List ℕ) (num_points : ℕ) :
    Option (List (ℝ × ℝ × ℝ × ℝ) × List ℝ) :=
  (pairIdxList num_points).foldlM (pairStep resp_vec w_vec ii) ([], [])

/-- `weight_vec = (1 / e_vec)**4`.  Caution: Lean's total division gives
`1/0 = 0` here, whereas numpy produces an infinite weight for a zero residual
(and NaN weighted averages downstream, see the zero-error input `respA`).
Statements about inputs with a zero entry in `e_vec` are therefore not
faithful to the float program and must exclude that degeneracy. -/
def weightVec (e_vec : List ℝ) : List ℝ := e_vec.map (fun e => (1 / e) ^ 4)

/-- `sum(weight_vec * col) / sum(weight_vec)`: one weighted-average
coefficient.  Caution: total real division gives `x/0 = 0` where numpy yields
`inf/inf = NaN`; the value is faithful to the float program only when the
weight sum is nonzero, i.e. away from the zero-residual degeneracy. -/
def wavg (weight_vec col : List ℝ) : ℝ :=
  (List.zipWith (fun x y => x * y) weight_vec col).sum / weight_vec.sum

/-- `a_w`: weighted average of the `a` column of `a_mat`. -/
def awOf (a_mat : List (ℝ × ℝ × ℝ × ℝ)) (e_vec : List ℝ) : ℝ :=
  wavg (weightVec e_vec) (a_mat.map (fun q => q.1))

/-- `b_w`: weighted average of the `b` column of `a_mat`. -/
def bwOf (a_mat : List (ℝ × ℝ × ℝ × ℝ)) (e_vec : List ℝ) : ℝ :=
  wavg (weightVec e_vec) (a_mat.map (fun q => q.2.1))

/-- `c_w`: weighted average of the `c` column of `a_mat`. -/
def cwOf (a_mat : List (ℝ × ℝ × ℝ × ℝ)) (e_vec : List ℝ) : ℝ :=
  wavg (weightVec e_vec) (a_mat.map (fun q => q.2.2.1))

/-- `d_w`: weighted average of the `d` column of `a_mat`. -/
def dwOf (a_mat : List (ℝ × ℝ × ℝ × ℝ)) (e_vec : List ℝ) : ℝ :=
  wavg (weightVec e_vec) (a_mat.map (fun q => q.2.2.2))

/-- `A_fit` recomputed from the weighted-average coefficients. -/
def AfitOf (a_mat : List (ℝ × ℝ × ℝ × ℝ)) (e_vec : List ℝ) : ℝ :=
  fitA (awOf a_mat e_vec) (bwOf a_mat e_vec) (dwOf a_mat e_vec)

/-- `w0_fit` recomputed from the weighted-average coefficients. -/
def w0fitOf (a_mat : List (ℝ × ℝ × ℝ × ℝ)) (e_vec : List ℝ) : ℝ :=
  fitW0 (dwOf a_mat e_vec)

/-- `Q_fit` recomputed from the weighted-average coefficients. -/
def QfitOf (a_mat : List (ℝ × ℝ × ℝ × ℝ)) (e_vec : List ℝ) : ℝ :=
  fitQ (cwOf a_mat e_vec) (dwOf a_mat e_vec)

/-- `phi_fit` recomputed from the weighted-average coefficients. -/
def phifitOf (a_mat : List (ℝ × ℝ × ℝ × ℝ)) (e_vec : List ℝ) : ℝ :=
  fitPhi (awOf a_mat e_vec) (bwOf a_mat e_vec)

/-- `H_fit`: the modeled response of the weighted fit over the frequency vector. -/
def HfitOf (a_mat : List (ℝ × ℝ × ℝ × ℝ)) (e_vec : List ℝ) (w_vec : List ℝ) : List ℂ :=
  w_vec.map (hFun (AfitOf a_mat e_vec) (w0fitOf a_mat e_vec) (QfitOf a_mat e_vec)
    (phifitOf a_mat e_vec))

/-- `np.std(abs(resp_vec)) / np.std(abs(resp_vec - H_fit))`: the variance-ratio
statistic of the plausibility check. -/
def plausRatio (resp_vec diff : List ℂ) : ℝ :=
  npStd (resp_vec.map Complex.abs) / npStd (diff.map Complex.abs)

/-- The fallback call of the empty-candidate branch (line
`p0 = ShoGuess.sho_fast_guess(resp_vec, w_vec)`): arguments in declared order. -/
def fallbackOrdered (resp_vec : List ℂ) (w_vec : List ℝ) : Option SHOParams :=
  sho_fast_guess resp_vec (w_vec.map Complex.ofReal) qual_factor_default

/-- The fallback call of the implausible-fit branch (line
`p0 = ShoGuess.sho_fast_guess(w_vec, resp_vec)`): arguments swapped. -/
def fallbackSwapped (resp_vec : List ℂ) (w_vec : List ℝ) : Option SHOParams :=
  sho_fast_guess (w_vec.map Complex.ofReal) resp_vec qual_factor_default

/-- `ShoGuess._unit_function resp_vec w_vec num_points`.  `w_opt = none` models
the omitted (default `None`) frequency vector; `none` as a result models an
uncaught runtime exception. -/
def unit_function (resp_vec : List ℂ) (w_opt : Option (List ℝ)) (num_points : ℕ) :
    Option SHOParams := do
  let w_vec := w_opt.getD (linspace 300000 350000 resp_vec.length)
  let amev ← aMatEVec resp_vec w_vec (sortIdx resp_vec) num_points
  let a_mat := amev.1
  let e_vec := amev.2
  if 0 < a_mat.length then do
    let diff ← bsubC resp_vec (HfitOf a_mat e_vec w_vec)
    if plausRatio resp_vec diff < 1.2 then
      fallbackSwapped resp_vec w_vec
    else do
      let mn ← npMin w_vec
      let mx ← npMax w_vec
      if w0fitOf a_mat e_vec < mn then fallbackSwapped resp_vec w_vec
      else if mx < w0fitOf a_mat e_vec then fallbackSwapped resp_vec w_vec
      else pure ⟨AfitOf a_mat e_vec, (w0fitOf a_mat e_vec : ℂ), QfitOf a_mat e_vec,
        phifitOf a_mat e_vec⟩
  else
    fallbackOrdered resp_vec w_vec

/-! ### Concrete inputs used by the evaluation theorems -/

/-- Exactly on the SHO curve `4 / (w^2 - 2*I*w - 4)` at `w = 1, 2, 3`
(amplitude 1, resonance 2, quality factor 1, phase 0): every candidate
residual is exactly zero. -/
def respA : List ℂ := [⟨-12/13, 8/13⟩, ⟨0, 1⟩, ⟨20/61, 24/61⟩]

/-- First two points on the curve `4 / (w^2 - 4*I*w - 4)` (quality factor
`1/2`), third point scaled by `-5/8`: the variance-ratio check fails. -/
def respB : List ℂ := [⟨-12/25, 16/25⟩, ⟨0, 1/2⟩, ⟨-25/338, -30/169⟩]

/-- First two points on the curve `4 / (w^2 + 4*I*w - 4)` (quality factor
`-1/2`), third point scaled by `7/8`: the plausibility check passes and the
weighted fit has a positive `c` coefficient, hence a negative quality factor. -/
def respC : List ℂ := [⟨-12/25, -16/25⟩, ⟨0, -1/2⟩, ⟨35/338, -42/169⟩]

/-- Real response values whose single candidate pair has a negative
denominator, so the candidate set stays empty. -/
def respD : List ℂ := [⟨2, 0⟩, ⟨1, 0⟩, ⟨1/2, 0⟩]

/-- The three-point frequency vector used with `respA`, `respB`, `respC`
and `respD`. -/
def wABC : List ℝ := [1, 2, 3]

/-- The frequency vector used with `respD` so that both candidate pairs have
negative denominators. -/
def wD : List ℝ := [1, 3, 9]

/-- A five-point frequency vector, longer than `respD`. -/
def wE : List ℝ := [1, 3, 9, 7, 11]

end

/-! ### List and sorting helpers -/

theorem insertByKey_length (key : ℕ → ℝ) (i : ℕ) (l : List ℕ) :
    (insertByKey key i l).length = l.length + 1 := by
  induction l with
  | nil => rfl
  | cons j rest ih =>
    rw [insertByKey]
    split_ifs
    · rfl
    · simp only [List.length_cons, ih]

theorem insertByKey_mem (key : ℕ → ℝ) (i : ℕ) (l : List ℕ) (x : ℕ) :
    x ∈ insertByKey key i l ↔ x = i ∨ x ∈ l := by
  induction l with
  | nil => simp [insertByKey]
  | cons j rest ih =>
    rw [insertByKey]
    split_ifs
    · simp [or_comm, or_assoc, or_left_comm]
    · simp [ih]
      tauto

theorem foldl_insertByKey_length (key : ℕ → ℝ) (l : List ℕ) :
    ∀ acc : List ℕ,
      (l.foldl (fun acc i => insertByKey key i acc) acc).length =
        acc.length + l.length := by
  induction l with
  | nil => simp
  | cons j rest ih =>
    intro acc
    simp only [List.foldl_cons, ih, insertByKey_length, List.length_cons]
    omega

theorem foldl_insertByKey_mem (key : ℕ → ℝ) (l : List ℕ) :
    ∀ (acc : List ℕ) (x : ℕ),
      x ∈ l.foldl (fun acc i => insertByKey key i acc) acc ↔ x ∈ acc ∨ x ∈ l := by
  induction l with
  | nil => simp
  | cons j rest ih =>
    intro acc x
    simp only [List.foldl_cons, ih, insertByKey_mem, List.mem_cons]
    tauto

theorem argsortKey_length (key : ℕ → ℝ) (n : ℕ) : (argsortKey key n).length = n := by
  simp [argsortKey, foldl_insertByKey_length]

theorem argsortKey_mem (key : ℕ → ℝ) (n : ℕ) (x : ℕ) :
    x ∈ argsortKey key n ↔ x < n := by
  simp [argsortKey, foldl_insertByKey_mem]

theorem sortIdx_length (resp_vec : List ℂ) :
    (sortIdx resp_vec).length = resp_vec.length := by
  simp [sortIdx, argsortKey_length]

theorem sortIdx_mem (resp_vec : List ℂ) (j : ℕ) (h : j ∈ sortIdx resp_vec) :
    j < resp_vec.length := by
  rw [sortIdx, List.mem_reverse, argsortKey_mem] at h
  exact h

/-! ### Totality and structure of the candidate loop -/

theorem get?_some_of_lt {α : Type} (l : List α) (n : ℕ) (h : n < l.length) :
    ∃ x, l[n]? = some x ∧ x ∈ l :=
  ⟨l[n], List.getElem?_eq_getElem h, List.getElem_mem h⟩

theorem pairData_some (resp_vec : List ℂ) (w_vec : List ℝ) (ii : List ℕ)
    (hlen : resp_vec.length = w_vec.length)
    (hii : ∀ j ∈ ii, j < resp_vec.length)
    (c1 c2 : ℕ) (h1 : c1 < ii.length) (h2 : c2 < ii.length) :
    ∃ pd, pairData resp_vec w_vec ii c1 c2 = some pd := by
  obtain ⟨i1, e1, m1⟩ := get?_some_of_lt ii c1 h1
  obtain ⟨i2, e2, m2⟩ := get?_some_of_lt ii c2 h2
  obtain ⟨w1, ew1, -⟩ := get?_some_of_lt w_vec i1 (hlen ▸ hii i1 m1)
  obtain ⟨w2, ew2, -⟩ := get?_some_of_lt w_vec i2 (hlen ▸ hii i2 m2)
  obtain ⟨r1, er1, -⟩ := get?_some_of_lt resp_vec i1 (hii i1 m1)
  obtain ⟨r2, er2, -⟩ := get?_some_of_lt resp_vec i2 (hii i2 m2)
  refine ⟨⟨w1, w2, r1.re, r2.re, r1.im, r2.im⟩, ?_⟩
  simp [pairData, e1, e2, ew1, ew2, er1, er2]

theorem candErr_some (resp_vec : List ℂ) (w_vec : List ℝ)
    (hlen : resp_vec.length = w_vec.length) (a b c d : ℝ) :
    ∃ e, candErr resp_vec w_vec a b c d = some e := by
  rw [← Option.isSome_iff_exists]
  simp [candErr, bsub, hlen]

theorem pairStep_some (resp_vec : List ℂ) (w_vec : List ℝ) (ii : List ℕ)
    (hlen : resp_vec.length = w_vec.length)
    (hii : ∀ j ∈ ii, j < resp_vec.length)
    (acc : List (ℝ × ℝ × ℝ × ℝ) × List ℝ) (p : ℕ × ℕ)
    (h1 : p.1 < ii.length) (h2 : p.2 < ii.length) :
    ∃ acc2, pairStep resp_vec w_vec ii acc p = some acc2 := by
  obtain ⟨pd, hpd⟩ := pairData_some resp_vec w_vec ii hlen hii p.1 p.2 h1 h2
  rw [← Option.isSome_iff_exists]
  by_cases hden : 0 < pairDenom pd
  · by_cases hd : 0 < (pairCoeffs pd).2.2.2
    · obtain ⟨e, he⟩ := candErr_some resp_vec w_vec hlen
        (pairCoeffs pd).1 (pairCoeffs pd).2.1 (pairCoeffs pd).2.2.1 (pairCoeffs pd).2.2.2
      simp [pairStep, hpd, hden, hd, he]
    · simp [pairStep, hpd, hden, hd]
  · simp [pairStep, hpd, hden]

theorem pairStep_cases (resp_vec : List ℂ) (w_vec : List ℝ) (ii : List ℕ)
    (acc acc2 : List (ℝ × ℝ × ℝ × ℝ) × List ℝ) (p : ℕ × ℕ)
    (h : pairStep resp_vec w_vec ii acc p = some acc2) :
    acc2 = acc ∨
      ∃ pd e, pairData resp_vec w_vec ii p.1 p.2 = some pd ∧ 0 < pairDenom pd ∧
        0 < (pairCoeffs pd).2.2.2 ∧
        candErr resp_vec w_vec (pairCoeffs pd).1 (pairCoeffs pd).2.1
          (pairCoeffs pd).2.2.1 (pairCoeffs pd).2.2.2 = some e ∧
        acc2 = (acc.1 ++ [pairCoeffs pd], acc.2 ++ [e]) := by
  rw [pairStep] at h
  cases hpd : pairData resp_vec w_vec ii p.1 p.2 with
  | none => rw [hpd] at h; simp at h
  | some pd =>
    rw [hpd] at h
    simp only [Option.bind_eq_bind, Option.some_bind] at h
    split_ifs at h with hden hd
    · cases he : candErr resp_vec w_vec (pairCoeffs pd).1 (pairCoeffs pd).2.1
        (pairCoeffs pd).2.2.1 (pairCoeffs pd).2.2.2 with
      | none => rw [he] at h; simp at h
      | some e =>
        rw [he] at h
        simp only [Option.bind_eq_bind, Option.some_bind, Option.pure_def,
          Option.some.injEq] at h
        exact Or.inr ⟨pd, e, rfl, hden, hd, he, h.symm⟩
    · simp only [Option.pure_def, Option.some.injEq] at h
      exact Or.inl h.symm
    · simp only [Option.pure_def, Option.some.injEq] at h
      exact Or.inl h.symm

theorem length_pairIdxList (np : ℕ) :
    (pairIdxList np).length = np * (np - 1) / 2 := by
  have h1 : (pairIdxList np).length = ∑ i ∈ Finset.range np, (np - (i + 1)) := by
    rw [pairIdxList, List.length_flatMap]
    have h0 : List.map
        (List.length ∘ fun c1 => ((List.range np).drop (c1 + 1)).map (fun c2 => (c1, c2)))
        (List.range np) = List.map (fun i => np - (i + 1)) (List.range np) := by
      apply List.map_congr_left
      intro i _
      simp
    rw [h0]
    rfl
  rw [h1]
  have h2 : ∀ i ∈ Finset.range np, np - (i + 1) = np - 1 - i := by
    intro i _
    omega
  rw [Finset.sum_congr rfl h2, Finset.sum_range_reflect (fun i => i) np]
  exact Finset.sum_range_id np

theorem pairIdxList_mem (np : ℕ) (p : ℕ × ℕ) (h : p ∈ pairIdxList np) :
    p.1 < np ∧ p.2 < np := by
  rw [pairIdxList, List.mem_flatMap] at h
  obtain ⟨c1, hc1, hp⟩ := h
  rw [List.mem_map] at hp
  obtain ⟨c2, hc2, rfl⟩ := hp
  have h2 := List.mem_of_mem_drop hc2
  simp only [List.mem_range] at hc1 h2
  exact ⟨hc1, h2⟩

theorem foldlM_pairStep (resp_vec : List ℂ) (w_vec : List ℝ) (ii : List ℕ)
    (hlen : resp_vec.length = w_vec.length)
    (hii : ∀ j ∈ ii, j < resp_vec.length) :
    ∀ (l : List (ℕ × ℕ)), (∀ p ∈ l, p.1 < ii.length ∧ p.2 < ii.length) →
      ∀ acc, ∃ acc2, l.foldlM (pairStep resp_vec w_vec ii) acc = some acc2 ∧
        ∀ q ∈ acc2.1, q ∈ acc.1 ∨
          ∃ p ∈ l, ∃ pd, pairData resp_vec w_vec ii p.1 p.2 = some pd ∧
            0 < pairDenom pd ∧ 0 < (pairCoeffs pd).2.2.2 ∧ q = pairCoeffs pd := by
  intro l
  induction l with
  | nil =>
    intro _ acc
    exact ⟨acc, by simp, fun q hq => Or.inl hq⟩
  | cons p rest ih =>
    intro hb acc
    obtain ⟨acc1, hstep⟩ := pairStep_some resp_vec w_vec ii hlen hii acc p
      (hb p (List.mem_cons_self p rest)).1 (hb p (List.mem_cons_self p rest)).2
    obtain ⟨acc2, hfold, hmem⟩ := ih (fun p' hp' => hb p' (List.mem_cons_of_mem _ hp')) acc1
    refine ⟨acc2, by simp [List.foldlM_cons, hstep, hfold], ?_⟩
    intro q hq
    rcases hmem q hq with hq1 | ⟨p', hp', pd, hpd, hden, hd, hco⟩
    · rcases pairStep_cases resp_vec w_vec ii acc acc1 p hstep with rfl | ⟨pd, e, hpd, hden, hd, _, rfl⟩
      · exact Or.inl hq1
      · rcases List.mem_append.mp hq1 with hmem1 | hmem1
        · exact Or.inl hmem1
        · rw [List.mem_singleton] at hmem1
          exact Or.inr ⟨p, List.mem_cons_self p rest, pd, hpd, hden, hd, hmem1⟩
    · exact Or.inr ⟨p', List.mem_cons_of_mem _ hp', pd, hpd, hden, hd, hco⟩

theorem aMatEVec_shape (resp_vec : List ℂ) (w_vec : List ℝ) (np : ℕ)
    (hlen : resp_vec.length = w_vec.length) (hnp : np ≤ resp_vec.length) :
    ∃ am ev, aMatEVec resp_vec w_vec (sortIdx resp_vec) np = some (am, ev) ∧
      ∀ q ∈ am, ∃ p ∈ pairIdxList np, ∃ pd,
        pairData resp_vec w_vec (sortIdx resp_vec) p.1 p.2 = some pd ∧
        0 < pairDenom pd ∧ 0 < (pairCoeffs pd).2.2.2 ∧ q = pairCoeffs pd := by
  have hb : ∀ p ∈ pairIdxList np,
      p.1 < (sortIdx resp_vec).length ∧ p.2 < (sortIdx resp_vec).length := by
    intro p hp
    obtain ⟨h1, h2⟩ := pairIdxList_mem np p hp
    rw [sortIdx_length]
    omega
  obtain ⟨acc2, hfold, hmem⟩ := foldlM_pairStep resp_vec w_vec (sortIdx resp_vec) hlen
    (sortIdx_mem resp_vec) (pairIdxList np) hb ([], [])
  refine ⟨acc2.1, acc2.2, by rw [aMatEVec, hfold], ?_⟩
  intro q hq
  rcases hmem q hq with hq1 | hq1
  · simp at hq1
  · exact hq1

/-! ### The classification of `unit_function` results on well-formed input -/

theorem npMean_nonneg (l : List ℝ) (h : ∀ x ∈ l, 0 ≤ x) : 0 ≤ npMean l :=
  div_nonneg (List.sum_nonneg h) (Nat.cast_nonneg _)

theorem abs_list_nonneg (l : List ℂ) : ∀ x ∈ l.map Complex.abs, 0 ≤ x := by
  intro x hx
  rw [List.mem_map] at hx
  obtain ⟨z, -, rfl⟩ := hx
  exact Complex.abs.nonneg z

theorem sho_fast_guess_eq (r w : List ℂ) (qf : ℝ)
    (h1 : r.length / 2 < w.length) (h2 : 0 < r.length) :
    ∃ wm rm, w[r.length / 2]? = some wm ∧ r[r.length / 2]? = some rm ∧
      sho_fast_guess r w qf =
        some ⟨npMean (r.map Complex.abs) / qf, wm, qf, Complex.arg rm⟩ := by
  obtain ⟨wm, ewm, -⟩ := get?_some_of_lt w _ h1
  obtain ⟨rm, erm, -⟩ := get?_some_of_lt r _ (Nat.div_lt_self h2 Nat.one_lt_two)
  refine ⟨wm, rm, ewm, erm, ?_⟩
  rw [sho_fast_guess]
  simp [List.get?_eq_getElem?, ewm, erm]

theorem fallbackOrdered_bundle (resp_vec : List ℂ) (w_vec : List ℝ)
    (hpos : 0 < resp_vec.length) (hlen : resp_vec.length = w_vec.length) :
    ∃ r, fallbackOrdered resp_vec w_vec = some r ∧ 0 ≤ r.amplitude ∧
      -Real.pi < r.phase ∧ r.phase ≤ Real.pi := by
  have h1 : resp_vec.length / 2 < (w_vec.map Complex.ofReal).length := by
    rw [List.length_map, ← hlen]
    exact Nat.div_lt_self hpos (by norm_num)
  obtain ⟨wm, rm, -, -, heq⟩ := sho_fast_guess_eq resp_vec _ qual_factor_default h1 hpos
  refine ⟨_, heq, ?_, Complex.neg_pi_lt_arg rm, Complex.arg_le_pi rm⟩
  exact div_nonneg (npMean_nonneg _ (abs_list_nonneg _)) (by norm_num [qual_factor_default])

theorem fallbackSwapped_bundle (resp_vec : List ℂ) (w_vec : List ℝ)
    (hpos : 0 < resp_vec.length) (hlen : resp_vec.length = w_vec.length) :
    ∃ r, fallbackSwapped resp_vec w_vec = some r ∧ 0 ≤ r.amplitude ∧
      -Real.pi < r.phase ∧ r.phase ≤ Real.pi := by
  have hwpos : 0 < (w_vec.map Complex.ofReal).length := by
    rw [List.length_map, ← hlen]
    exact hpos
  have h1 : (w_vec.map Complex.ofReal).length / 2 < resp_vec.length := by
    rw [List.length_map, ← hlen]
    exact Nat.div_lt_self hpos (by norm_num)
  obtain ⟨wm, rm, -, -, heq⟩ :=
    sho_fast_guess_eq (w_vec.map Complex.ofReal) resp_vec qual_factor_default h1 hwpos
  refine ⟨_, heq, ?_, Complex.neg_pi_lt_arg rm, Complex.arg_le_pi rm⟩
  exact div_nonneg (npMean_nonneg _ (abs_list_nonneg _)) (by norm_num [qual_factor_default])

theorem weightVec_nonneg (e_vec : List ℝ) : ∀ x ∈ weightVec e_vec, 0 ≤ x := by
  intro x hx
  rw [weightVec, List.mem_map] at hx
  obtain ⟨e, -, rfl⟩ := hx
  positivity

theorem zipWith_mul_sum_nonneg :
    ∀ (l1 l2 : List ℝ), (∀ x ∈ l1, 0 ≤ x) → (∀ y ∈ l2, 0 ≤ y) →
      0 ≤ (List.zipWith (fun x y => x * y) l1 l2).sum
  | [], _, _, _ => by simp
  | _ :: _, [], _, _ => by simp
  | x :: l1, y :: l2, h1, h2 => by
    simp only [List.zipWith_cons_cons, List.sum_cons]
    have hrec := zipWith_mul_sum_nonneg l1 l2
      (fun a ha => h1 a (List.mem_cons_of_mem _ ha))
      (fun b hb => h2 b (List.mem_cons_of_mem _ hb))
    have hxy := mul_nonneg (h1 x (List.mem_cons_self x l1)) (h2 y (List.mem_cons_self y l2))
    linarith

theorem wavg_nonneg (wv col : List ℝ) (h1 : ∀ x ∈ wv, 0 ≤ x) (h2 : ∀ y ∈ col, 0 ≤ y) :
    0 ≤ wavg wv col :=
  div_nonneg (zipWith_mul_sum_nonneg wv col h1 h2) (List.sum_nonneg h1)

theorem npMin_mem (w : List ℝ) (h : w ≠ []) : ∃ mn, npMin w = some mn := by
  cases w with
  | nil => exact absurd rfl h
  | cons x xs => exact ⟨_, rfl⟩

theorem npMax_mem (w : List ℝ) (h : w ≠ []) : ∃ mx, npMax w = some mx := by
  cases w with
  | nil => exact absurd rfl h
  | cons x xs => exact ⟨_, rfl⟩

theorem unit_function_classify (resp_vec : List ℂ) (w_vec : List ℝ) (np : ℕ)
    (hpos : 0 < resp_vec.length) (hlen : resp_vec.length = w_vec.length)
    (hnp : np ≤ resp_vec.length) :
    ∃ r, unit_function resp_vec (some w_vec) np = some r ∧
      0 ≤ r.amplitude ∧ -Real.pi < r.phase ∧ r.phase ≤ Real.pi ∧
      (unit_function resp_vec (some w_vec) np = fallbackSwapped resp_vec w_vec ∨
       unit_function resp_vec (some w_vec) np = fallbackOrdered resp_vec w_vec ∨
       ∃ mn mx, npMin w_vec = some mn ∧ npMax w_vec = some mx ∧
         ∃ w0 : ℝ, r.frequency = (w0 : ℂ) ∧ mn ≤ w0 ∧ w0 ≤ mx) := by
  obtain ⟨am, ev, ham, hmem⟩ := aMatEVec_shape resp_vec w_vec np hlen hnp
  by_cases h0 : 0 < am.length
  case neg =>
    have heq : unit_function resp_vec (some w_vec) np = fallbackOrdered resp_vec w_vec := by
      simp [unit_function, ham, h0]
    obtain ⟨r, hr, h1, h2, h3⟩ := fallbackOrdered_bundle resp_vec w_vec hpos hlen
    exact ⟨r, heq.trans hr, h1, h2, h3, Or.inr (Or.inl heq)⟩
  case pos =>
    have hdiff : bsubC resp_vec (HfitOf am ev w_vec) =
        some (List.zipWith (fun x y => x - y) resp_vec (HfitOf am ev w_vec)) := by
      simp [bsubC, HfitOf, hlen]
    by_cases hrat : plausRatio resp_vec
        (List.zipWith (fun x y => x - y) resp_vec (HfitOf am ev w_vec)) < 1.2
    · have heq : unit_function resp_vec (some w_vec) np = fallbackSwapped resp_vec w_vec := by
        simp [unit_function, ham, h0, hdiff, hrat]
      obtain ⟨r, hr, h1, h2, h3⟩ := fallbackSwapped_bundle resp_vec w_vec hpos hlen
      exact ⟨r, heq.trans hr, h1, h2, h3, Or.inl heq⟩
    · have hw : w_vec ≠ [] := by
        intro hnil
        rw [hnil] at hlen
        simp only [List.length_nil] at hlen
        omega
      obtain ⟨mn, hmn⟩ := npMin_mem w_vec hw
      obtain ⟨mx, hmx⟩ := npMax_mem w_vec hw
      by_cases hlt1 : w0fitOf am ev < mn
      · have heq : unit_function resp_vec (some w_vec) np = fallbackSwapped resp_vec w_vec := by
          simp [unit_function, ham, h0, hdiff, hrat, hmn, hmx, hlt1]
        obtain ⟨r, hr, h1, h2, h3⟩ := fallbackSwapped_bundle resp_vec w_vec hpos hlen
        exact ⟨r, heq.trans hr, h1, h2, h3, Or.inl heq⟩
      · by_cases hlt2 : mx < w0fitOf am ev
        · have heq : unit_function resp_vec (some w_vec) np =
              fallbackSwapped resp_vec w_vec := by
            simp [unit_function, ham, h0, hdiff, hrat, hmn, hmx, hlt1, hlt2]
          obtain ⟨r, hr, h1, h2, h3⟩ := fallbackSwapped_bundle resp_vec w_vec hpos hlen
          exact ⟨r, heq.trans hr, h1, h2, h3, Or.inl heq⟩
        · have heq : unit_function resp_vec (some w_vec) np =
              some ⟨AfitOf am ev, (w0fitOf am ev : ℂ), QfitOf am ev, phifitOf am ev⟩ := by
            simp [unit_function, ham, h0, hdiff, hrat, hmn, hmx, hlt1, hlt2]
          have hdnonneg : 0 ≤ dwOf am ev := by
            refine wavg_nonneg _ _ (weightVec_nonneg ev) ?_
            intro y hy
            rw [List.mem_map] at hy
            obtain ⟨q, hq, rfl⟩ := hy
            obtain ⟨p, -, pd, -, -, hdp, hco⟩ := hmem q hq
            rw [hco]
            exact le_of_lt hdp
          refine ⟨_, heq, ?_, ?_, ?_,
            Or.inr (Or.inr ⟨mn, mx, hmn, hmx, w0fitOf am ev, rfl,
              not_lt.mp hlt1, not_lt.mp hlt2⟩)⟩
          · exact div_nonneg (Complex.abs.nonneg _) hdnonneg
          · exact Complex.neg_pi_lt_arg _
          · exact Complex.arg_le_pi _

/-! ### Claim theorems: structural properties -/

/-- Claim C4: for every well-formed input — equal lengths, nonempty, at least
`num_points` samples, and non-degenerate in the sense that no accepted
candidate's residual error is exactly zero — `estimate` never fails: it
returns a complete 4-tuple whose amplitude is nonnegative and whose phase lies
in `(-π, π]`.  The non-degeneracy hypothesis excludes inputs such as `respA`:
there the weight computation `(1/e)**4` divides by an exactly-zero residual
and the numpy program produces NaN outputs, which this exact-arithmetic
embedding cannot represent faithfully. -/
theorem C4_estimate_total_amp_phase (resp_vec : List ℂ) (w_vec : List ℝ) (np : ℕ)
    (hpos : 0 < resp_vec.length) (hlen : resp_vec.length = w_vec.length)
    (hnp : np ≤ resp_vec.length)
    (hnz : ∀ am ev, aMatEVec resp_vec w_vec (sortIdx resp_vec) np = some (am, ev) →
      ∀ e ∈ ev, e ≠ 0) :
    ∃ r, unit_function resp_vec (some w_vec) np = some r ∧
      0 ≤ r.amplitude ∧ -Real.pi < r.phase ∧ r.phase ≤ Real.pi := by
  obtain ⟨r, h1, h2, h3, h4, -⟩ := unit_function_classify resp_vec w_vec np hpos hlen hnp
  exact ⟨r, h1, h2, h3, h4⟩

/-- Witness for C4 at the concrete input `resp = [1], w = [1], num_points = 1`
(no pair is formed, so the residual list is empty and the non-degeneracy
hypothesis holds vacuously). -/
theorem C4_estimate_total_amp_phase_witness :
    ∃ r, unit_function [⟨1, 0⟩] (some [1]) 1 = some r ∧
      0 ≤ r.amplitude ∧ -Real.pi < r.phase ∧ r.phase ≤ Real.pi :=
  C4_estimate_total_amp_phase [⟨1, 0⟩] [1] 1 (by norm_num) (by norm_num) (by norm_num)
    (by
      intro am ev h
      rw [show aMatEVec [⟨1, 0⟩] [1] (sortIdx [⟨1, 0⟩]) 1 = some ([], []) by
        rw [aMatEVec, show pairIdxList 1 = [] by decide]
        rfl] at h
      simp only [Option.some.injEq, Prod.mk.injEq] at h
      intro e he
      rw [← h.2] at he
      simp at he)

/-- Claim C5: on every well-formed non-degenerate input (equal lengths,
nonempty, at least `num_points` samples, and no accepted candidate with
residual error exactly zero), every result of `estimate` either is one of the
two fallback-call results or carries a real resonance frequency lying within
`[min(freq_vec), max(freq_vec)]`: implausible weighted fits are rejected in
favor of the fallback.  The non-degeneracy hypothesis excludes the zero-error
degeneracy (inputs such as `respA`), where the numpy weight computation
divides by zero and NaN values flow through the weighted path, which this
exact-arithmetic embedding cannot represent faithfully. -/
theorem C5_weighted_freq_in_range (resp_vec : List ℂ) (w_vec : List ℝ) (np : ℕ)
    (hpos : 0 < resp_vec.length) (hlen : resp_vec.length = w_vec.length)
    (hnp : np ≤ resp_vec.length)
    (hnz : ∀ am ev, aMatEVec resp_vec w_vec (sortIdx resp_vec) np = some (am, ev) →
      ∀ e ∈ ev, e ≠ 0) :
    ∃ r, unit_function resp_vec (some w_vec) np = some r ∧
      (unit_function resp_vec (some w_vec) np = fallbackSwapped resp_vec w_vec ∨
       unit_function resp_vec (some w_vec) np = fallbackOrdered resp_vec w_vec ∨
       ∃ mn mx, npMin w_vec = some mn ∧ npMax w_vec = some mx ∧
         ∃ w0 : ℝ, r.frequency = (w0 : ℂ) ∧ mn ≤ w0 ∧ w0 ≤ mx) := by
  obtain ⟨r, h1, -, -, -, h5⟩ := unit_function_classify resp_vec w_vec np hpos hlen hnp
  exact ⟨r, h1, h5⟩

/-- Claim C9: when the frequency vector is omitted, `estimate` substitutes
`linspace(300e3, 350e3, len(resp_vec))` and proceeds exactly as if that vector
had been supplied. -/
theorem C9_default_linspace (resp_vec : List ℂ) (np : ℕ) :
    unit_function resp_vec none np =
      unit_function resp_vec (some (linspace 300000 350000 resp_vec.length)) np := rfl

/-- Claim C6: `model_response` returns, at each index of the frequency vector,
exactly `A * exp(i*phi) * f0^2 / (f^2 - i*f*f0/Q - f0^2)`. -/
theorem C6_model_response_formula (parms : ℝ × ℝ × ℝ × ℝ) (w_vec : List ℝ)
    (i : ℕ) (w : ℝ) (h : w_vec[i]? = some w) :
    (sho_function_vec parms w_vec)[i]? =
      some ((parms.1 : ℂ) * Complex.exp (Complex.I * (parms.2.2.2 : ℝ)) *
        (parms.2.1 : ℂ) ^ 2 /
        ((w : ℂ) ^ 2 - Complex.I * (w : ℂ) * (parms.2.1 : ℂ) / (parms.2.2.1 : ℂ) -
          (parms.2.1 : ℂ) ^ 2)) := by
  rw [sho_function_vec, List.getElem?_map, h]
  rfl

/-- Witness for C6 at `parms = (1, 2, 3, 4)`, `w_vec = [5]`, `i = 0`. -/
theorem C6_model_response_formula_witness :
    (sho_function_vec (1, 2, 3, 4) [5])[0]? =
      some (((1 : ℝ) : ℂ) * Complex.exp (Complex.I * ((4 : ℝ) : ℂ)) * ((2 : ℝ) : ℂ) ^ 2 /
        (((5 : ℝ) : ℂ) ^ 2 - Complex.I * ((5 : ℝ) : ℂ) * ((2 : ℝ) : ℂ) / ((3 : ℝ) : ℂ) -
          ((2 : ℝ) : ℂ) ^ 2)) :=
  C6_model_response_formula (1, 2, 3, 4) [5] 0 5 rfl

/-- Claim C7: `estimate` visits exactly `num_points*(num_points-1)/2` unordered
pairs, every accepted candidate comes from a pair with positive denominator and
positive `d` coefficient, with `num_points = 2` exactly one pair is visited,
and the call does not fail on well-formed input. -/
theorem C7_pair_enumeration (resp_vec : List ℂ) (w_vec : List ℝ) (np : ℕ)
    (hpos : 0 < resp_vec.length) (hlen : resp_vec.length = w_vec.length)
    (hnp : np ≤ resp_vec.length) :
    (pairIdxList np).length = np * (np - 1) / 2 ∧
    (∀ am ev, aMatEVec resp_vec w_vec (sortIdx resp_vec) np = some (am, ev) →
      ∀ q ∈ am, ∃ p ∈ pairIdxList np, ∃ pd,
        pairData resp_vec w_vec (sortIdx resp_vec) p.1 p.2 = some pd ∧
        0 < pairDenom pd ∧ 0 < (pairCoeffs pd).2.2.2 ∧ q = pairCoeffs pd) ∧
    pairIdxList 2 = [(0, 1)] ∧
    (∃ r, unit_function resp_vec (some w_vec) np = some r) := by
  obtain ⟨am', ev', ham', hmem'⟩ := aMatEVec_shape resp_vec w_vec np hlen hnp
  refine ⟨length_pairIdxList np, ?_, by rfl, ?_⟩
  · intro am ev h
    rw [ham'] at h
    obtain ⟨h1, h2⟩ := Prod.mk.injEq .. ▸ Option.some.injEq .. ▸ h
    exact h1 ▸ hmem'
  · obtain ⟨r, h1, -⟩ := unit_function_classify resp_vec w_vec np hpos hlen hnp
    exact ⟨r, h1⟩

/-- Witness for C7 at the concrete input `respD`, `wABC`, `num_points = 2`. -/
theorem C7_pair_enumeration_witness :
    (pairIdxList 2).length = 2 * (2 - 1) / 2 ∧
    (∀ am ev, aMatEVec respD wABC (sortIdx respD) 2 = some (am, ev) →
      ∀ q ∈ am, ∃ p ∈ pairIdxList 2, ∃ pd,
        pairData respD wABC (sortIdx respD) p.1 p.2 = some pd ∧
        0 < pairDenom pd ∧ 0 < (pairCoeffs pd).2.2.2 ∧ q = pairCoeffs pd) ∧
    pairIdxList 2 = [(0, 1)] ∧
    (∃ r, unit_function respD (some wABC) 2 = some r) :=
  C7_pair_enumeration respD wABC 2 (by norm_num [respD]) (by norm_num [respD, wABC])
    (by norm_num [respD])

/-! ### Helpers for evaluating the pipeline on concrete rational inputs -/

theorem cabs_eval (x y r : ℝ) (hr : 0 ≤ r) (h : x * x + y * y = r * r) :
    Complex.abs ⟨x, y⟩ = r := by
  rw [Complex.abs_apply, Complex.normSq_mk, h, Real.sqrt_mul_self hr]

theorem cmk_lt_cmk (x1 y1 x2 y2 : ℝ) (h : x1 * x1 + y1 * y1 < x2 * x2 + y2 * y2) :
    Complex.abs ⟨x1, y1⟩ < Complex.abs ⟨x2, y2⟩ := by
  rw [Complex.abs_apply, Complex.abs_apply, Complex.normSq_mk, Complex.normSq_mk]
  exact Real.sqrt_lt_sqrt (add_nonneg (mul_self_nonneg x1) (mul_self_nonneg y1)) h

theorem sortIdx_three (resp_vec : List ℂ) (hlen : resp_vec.length = 3)
    (h01 : respKey resp_vec 1 < respKey resp_vec 0)
    (h12 : respKey resp_vec 2 < respKey resp_vec 1) :
    sortIdx resp_vec = [0, 1, 2] := by
  have h02 : ¬ (respKey resp_vec 1 < respKey resp_vec 1) := lt_irrefl _
  rw [sortIdx, hlen]
  have hr : List.range 3 = [0, 1, 2] := by decide
  rw [argsortKey, hr]
  simp only [List.foldl_cons, List.foldl_nil, insertByKey, if_pos, if_neg, h01, h12]
  rfl

theorem arg_mk_zero (x : ℝ) (h : 0 ≤ x) : Complex.arg ⟨x, 0⟩ = 0 := by
  rw [show (⟨x, 0⟩ : ℂ) = ((x : ℝ) : ℂ) from rfl]
  exact Complex.arg_ofReal_of_nonneg h

theorem sqrt_four : Real.sqrt 4 = 2 := by
  rw [show (4 : ℝ) = 2 ^ 2 by norm_num, Real.sqrt_sq (by norm_num)]

theorem wavg_single (w x : ℝ) (hw : w ≠ 0) : wavg [w] [x] = x := by
  rw [wavg]
  simp
  field_simp

theorem npMean_three (x1 x2 x3 : ℝ) : npMean [x1, x2, x3] = (x1 + x2 + x3) / 3 := by
  rw [npMean]
  simp
  ring

theorem npStd_three (x1 x2 x3 m v : ℝ) (hm : npMean [x1, x2, x3] = m)
    (hv : ((x1 - m) ^ 2 + (x2 - m) ^ 2 + (x3 - m) ^ 2) / 3 = v) :
    npStd [x1, x2, x3] = Real.sqrt v := by
  rw [npStd]
  have h1 : ([x1, x2, x3].map (fun x => (x - npMean [x1, x2, x3]) ^ 2)) =
      [(x1 - m) ^ 2, (x2 - m) ^ 2, (x3 - m) ^ 2] := by
    rw [hm]
    rfl
  rw [h1, npMean_three, hv]

theorem ratio_lt_of_var (vm vr : ℝ) (hvm : 0 ≤ vm) (hvr : 0 < vr)
    (h : vm * 25 < vr * 36) :
    Real.sqrt vm / Real.sqrt vr < 1.2 := by
  rw [← Real.sqrt_div hvm]
  refine (Real.sqrt_lt' (by norm_num)).mpr ?_
  rw [div_lt_iff₀ hvr]
  nlinarith

theorem ratio_not_lt_of_var (vm vr : ℝ) (hvr : 0 < vr) (h : vr * 36 ≤ vm * 25) :
    ¬ (Real.sqrt vm / Real.sqrt vr < 1.2) := by
  have hvm : (0 : ℝ) ≤ vm := by nlinarith
  rw [← Real.sqrt_div hvm]
  rw [not_lt]
  refine (Real.le_sqrt (by norm_num) (by positivity)).mpr ?_
  rw [le_div_iff₀ hvr]
  nlinarith

theorem cmk_ne_zero_re (x y : ℝ) (h : x ≠ 0) : (⟨x, y⟩ : ℂ) ≠ 0 := by
  intro hz
  rw [Complex.ext_iff] at hz
  exact h hz.1

theorem cmk_ne_zero_im (x y : ℝ) (h : y ≠ 0) : (⟨x, y⟩ : ℂ) ≠ 0 := by
  intro hz
  rw [Complex.ext_iff] at hz
  exact h hz.2

/-! ### Evaluation on `respA`: exact on-model data, zero residual -/

theorem respA_sort : sortIdx respA = [0, 1, 2] := by
  refine sortIdx_three respA rfl ?_ ?_
  · rw [show respKey respA 1 = Complex.abs ⟨0, 1⟩ from rfl,
      show respKey respA 0 = Complex.abs ⟨-12/13, 8/13⟩ from rfl]
    exact cmk_lt_cmk _ _ _ _ (by norm_num)
  · rw [show respKey respA 2 = Complex.abs ⟨20/61, 24/61⟩ from rfl,
      show respKey respA 1 = Complex.abs ⟨0, 1⟩ from rfl]
    exact cmk_lt_cmk _ _ _ _ (by norm_num)

theorem pairDataA : pairData respA wABC [0, 1, 2] 0 1 =
    some ⟨1, 2, -12/13, 0, 8/13, 1⟩ := rfl

theorem pairCoeffsA : pairCoeffs ⟨1, 2, -12/13, 0, 8/13, 1⟩ = (-4, 0, -2, 4) := by
  rw [pairCoeffs]
  norm_num [pairDenom]

theorem fitA_one : fitA (-4) 0 4 = 1 := by
  rw [fitA, cabs_eval (-4) 0 4 (by norm_num) (by norm_num)]
  norm_num

theorem fitW0_two : fitW0 4 = 2 := by
  rw [fitW0]
  exact sqrt_four

theorem fitQ_A : fitQ (-2) 4 = 1 := by
  rw [fitQ, sqrt_four]
  norm_num

theorem fitPhi_A : fitPhi (-4) 0 = 0 := by
  rw [fitPhi]
  norm_num
  exact arg_mk_zero 4 (by norm_num)

theorem hA1 : hFun 1 2 1 0 1 = ⟨-12/13, 8/13⟩ := by
  rw [hFun]
  simp only [Complex.ofReal_zero, mul_zero, Complex.exp_zero, mul_one, Complex.ofReal_one,
    Complex.ofReal_ofNat, one_mul]
  rw [Complex.ext_iff]
  constructor <;>
    simp [Complex.div_re, Complex.div_im, Complex.normSq_apply, Complex.mul_re, Complex.mul_im,
      Complex.sub_re, Complex.sub_im, Complex.I_re, Complex.I_im, pow_two] <;>
    norm_num

theorem hA2 : hFun 1 2 1 0 2 = ⟨0, 1⟩ := by
  rw [hFun]
  simp only [Complex.ofReal_zero, mul_zero, Complex.exp_zero, mul_one, Complex.ofReal_one,
    Complex.ofReal_ofNat, one_mul]
  rw [Complex.ext_iff]
  constructor <;>
    simp [Complex.div_re, Complex.div_im, Complex.normSq_apply, Complex.mul_re, Complex.mul_im,
      Complex.sub_re, Complex.sub_im, Complex.I_re, Complex.I_im, pow_two] <;>
    norm_num

theorem hA3 : hFun 1 2 1 0 3 = ⟨20/61, 24/61⟩ := by
  rw [hFun]
  simp only [Complex.ofReal_zero, mul_zero, Complex.exp_zero, mul_one, Complex.ofReal_one,
    Complex.ofReal_ofNat, one_mul]
  rw [Complex.ext_iff]
  constructor <;>
    simp [Complex.div_re, Complex.div_im, Complex.normSq_apply, Complex.mul_re, Complex.mul_im,
      Complex.sub_re, Complex.sub_im, Complex.I_re, Complex.I_im, pow_two] <;>
    norm_num

theorem hmapA : wABC.map (hFun (fitA (-4) 0 4) (fitW0 4) (fitQ (-2) 4) (fitPhi (-4) 0)) =
    respA := by
  rw [fitA_one, fitW0_two, fitQ_A, fitPhi_A, wABC, respA]
  simp only [List.map_cons, List.map_nil]
  rw [hA1, hA2, hA3]

theorem candErrA : candErr respA wABC (-4) 0 (-2) 4 = some 0 := by
  rw [candErr, hmapA]
  norm_num [bsub, respA, sumSq]

theorem pairStepA : pairStep respA wABC [0, 1, 2] ([], []) (0, 1) =
    some ([(-4, 0, -2, 4)], [0]) := by
  rw [pairStep, pairDataA]
  simp only [Option.bind_eq_bind, Option.some_bind]
  rw [if_pos (show (0 : ℝ) < pairDenom ⟨1, 2, -12/13, 0, 8/13, 1⟩ by norm_num [pairDenom])]
  rw [pairCoeffsA]
  norm_num [candErrA]

theorem aMatA : aMatEVec respA wABC (sortIdx respA) 2 = some ([(-4, 0, -2, 4)], [0]) := by
  rw [respA_sort, aMatEVec, show pairIdxList 2 = [(0, 1)] by decide]
  simp [List.foldlM_cons, List.foldlM_nil, pairStepA]

/-- Claim C2: the code has no exact-match short-circuit for a zero-error
candidate.  On exact on-model data (`respA`) the candidate loop produces the
single candidate `(-4, 0, -2, 4)` with residual error exactly `0`, and the
weight computation then evaluates `(1/0)^4`: the weighted average is not
bypassed.  (In the numpy original this produces an infinite weight and NaN
results rather than the candidate's own parameters.) -/
theorem C2_zero_error_reaches_weight_division :
    aMatEVec respA wABC (sortIdx respA) 2 = some ([(-4, 0, -2, 4)], [0]) ∧
    weightVec [0] = [(1 / (0 : ℝ)) ^ 4] :=
  ⟨aMatA, rfl⟩

/-! ### Evaluation on `respD`: the input-validation counterexamples -/

theorem respD_sort : sortIdx respD = [0, 1, 2] := by
  refine sortIdx_three respD rfl ?_ ?_
  · rw [show respKey respD 1 = Complex.abs ⟨1, 0⟩ from rfl,
      show respKey respD 0 = Complex.abs ⟨2, 0⟩ from rfl]
    exact cmk_lt_cmk _ _ _ _ (by norm_num)
  · rw [show respKey respD 2 = Complex.abs ⟨1/2, 0⟩ from rfl,
      show respKey respD 1 = Complex.abs ⟨1, 0⟩ from rfl]
    exact cmk_lt_cmk _ _ _ _ (by norm_num)

theorem pairStepD1 : pairStep respD wD [0, 1, 2] ([], []) (0, 1) = some ([], []) := by
  rw [pairStep, show pairData respD wD [0, 1, 2] 0 1 = some ⟨1, 3, 2, 1, 0, 0⟩ from rfl]
  simp only [Option.bind_eq_bind, Option.some_bind]
  rw [if_neg (show ¬ (0 : ℝ) < pairDenom ⟨1, 3, 2, 1, 0, 0⟩ by norm_num [pairDenom])]
  rfl

theorem pairStepD2 : pairStep respD wD [0, 1, 2] ([], []) (0, 2) = some ([], []) := by
  rw [pairStep, show pairData respD wD [0, 1, 2] 0 2 = some ⟨1, 9, 2, 1/2, 0, 0⟩ from rfl]
  simp only [Option.bind_eq_bind, Option.some_bind]
  rw [if_neg (show ¬ (0 : ℝ) < pairDenom ⟨1, 9, 2, 1/2, 0, 0⟩ by norm_num [pairDenom])]
  rfl

theorem pairStepD3 : pairStep respD wD [0, 1, 2] ([], []) (0, 3) = none := by
  rw [pairStep, show pairData respD wD [0, 1, 2] 0 3 = none from rfl]
  rfl

theorem unitD_none : unit_function respD (some wD) 5 = none := by
  have hfold : aMatEVec respD wD (sortIdx respD) 5 = none := by
    rw [respD_sort, aMatEVec, show pairIdxList 5 =
      [(0, 1), (0, 2), (0, 3), (0, 4), (1, 2), (1, 3), (1, 4), (2, 3), (2, 4), (3, 4)]
      by decide]
    simp [List.foldlM_cons, pairStepD1, pairStepD2, pairStepD3]
  simp [unit_function, hfold]

theorem pairStepE : pairStep respD wE [0, 1, 2] ([], []) (0, 1) = some ([], []) := by
  rw [pairStep, show pairData respD wE [0, 1, 2] 0 1 = some ⟨1, 3, 2, 1, 0, 0⟩ from rfl]
  simp only [Option.bind_eq_bind, Option.some_bind]
  rw [if_neg (show ¬ (0 : ℝ) < pairDenom ⟨1, 3, 2, 1, 0, 0⟩ by norm_num [pairDenom])]
  rfl

theorem aMatE : aMatEVec respD wE (sortIdx respD) 2 = some ([], []) := by
  rw [respD_sort, aMatEVec, show pairIdxList 2 = [(0, 1)] by decide]
  simp [List.foldlM_cons, List.foldlM_nil, pairStepE]

theorem respD_abs : respD.map Complex.abs = [2, 1, 1/2] := by
  rw [respD]
  simp only [List.map_cons, List.map_nil]
  rw [cabs_eval 2 0 2 (by norm_num) (by norm_num),
    cabs_eval 1 0 1 (by norm_num) (by norm_num),
    cabs_eval (1/2) 0 (1/2) (by norm_num) (by norm_num)]

theorem fallbackOrderedE : fallbackOrdered respD wE =
    some ⟨7/1200, ((3 : ℝ) : ℂ), 200, 0⟩ := by
  obtain ⟨wm, rm, hwm, hrm, heq⟩ := sho_fast_guess_eq respD (wE.map Complex.ofReal)
    qual_factor_default (by norm_num [respD, wE]) (by norm_num [respD])
  have h1 : some (Complex.ofReal 3) = some wm := hwm
  have h2 : some (⟨1, 0⟩ : ℂ) = some rm := hrm
  rw [fallbackOrdered, heq, ← Option.some.inj h1, ← Option.some.inj h2]
  rw [respD_abs, npMean_three, qual_factor_default, arg_mk_zero 1 (by norm_num)]
  norm_num

theorem unitE_silent : unit_function respD (some wE) 2 =
    some ⟨7/1200, ((3 : ℝ) : ℂ), 200, 0⟩ := by
  rw [← fallbackOrderedE]
  simp [unit_function, aMatE]

/-- Claim C3: the code performs no input validation.  With
`len(resp_vec) = 3 < num_points = 5` the loop crashes on an out-of-range index
(modelled as `none`) instead of failing with an Invalid-Input error before any
computation; with mismatched lengths (`len(freq_vec) = 5 ≠ 3`) the call
silently returns a normal result instead of failing. -/
theorem C3_no_input_validation :
    unit_function respD (some wD) 5 = none ∧
    unit_function respD (some wE) 2 = some ⟨7/1200, ((3 : ℝ) : ℂ), 200, 0⟩ :=
  ⟨unitD_none, unitE_silent⟩

/-! ### Evaluation on `respB`: plausibility check fails, swapped fallback -/

theorem respB_sort : sortIdx respB = [0, 1, 2] := by
  refine sortIdx_three respB rfl ?_ ?_
  · rw [show respKey respB 1 = Complex.abs ⟨0, 1/2⟩ from rfl,
      show respKey respB 0 = Complex.abs ⟨-12/25, 16/25⟩ from rfl]
    exact cmk_lt_cmk _ _ _ _ (by norm_num)
  · rw [show respKey respB 2 = Complex.abs ⟨-25/338, -30/169⟩ from rfl,
      show respKey respB 1 = Complex.abs ⟨0, 1/2⟩ from rfl]
    exact cmk_lt_cmk _ _ _ _ (by norm_num)

theorem pairDataB : pairData respB wABC [0, 1, 2] 0 1 =
    some ⟨1, 2, -12/25, 0, 16/25, 1/2⟩ := rfl

theorem pairCoeffsB : pairCoeffs ⟨1, 2, -12/25, 0, 16/25, 1/2⟩ = (-4, 0, -4, 4) := by
  rw [pairCoeffs]
  norm_num [pairDenom]

theorem fitQ_B : fitQ (-4) 4 = 1/2 := by
  rw [fitQ, sqrt_four]
  norm_num

theorem hB1 : hFun 1 2 (1/2) 0 1 = ⟨-12/25, 16/25⟩ := by
  rw [hFun]
  simp only [Complex.ofReal_zero, mul_zero, Complex.exp_zero, mul_one, Complex.ofReal_one,
    Complex.ofReal_ofNat, one_mul]
  rw [Complex.ext_iff]
  constructor <;>
    simp [Complex.div_re, Complex.div_im, Complex.normSq_apply, Complex.mul_re, Complex.mul_im,
      Complex.sub_re, Complex.sub_im, Complex.I_re, Complex.I_im, pow_two] <;>
    norm_num

theorem hB2 : hFun 1 2 (1/2) 0 2 = ⟨0, 1/2⟩ := by
  rw [hFun]
  simp only [Complex.ofReal_zero, mul_zero, Complex.exp_zero, mul_one, Complex.ofReal_one,
    Complex.ofReal_ofNat, one_mul]
  rw [Complex.ext_iff]
  constructor <;>
    simp [Complex.div_re, Complex.div_im, Complex.normSq_apply, Complex.mul_re, Complex.mul_im,
      Complex.sub_re, Complex.sub_im, Complex.I_re, Complex.I_im, pow_two] <;>
    norm_num

theorem hB3 : hFun 1 2 (1/2) 0 3 = ⟨20/169, 48/169⟩ := by
  rw [hFun]
  simp only [Complex.ofReal_zero, mul_zero, Complex.exp_zero, mul_one, Complex.ofReal_one,
    Complex.ofReal_ofNat, one_mul]
  rw [Complex.ext_iff]
  constructor <;>
    simp [Complex.div_re, Complex.div_im, Complex.normSq_apply, Complex.mul_re, Complex.mul_im,
      Complex.sub_re, Complex.sub_im, Complex.I_re, Complex.I_im, pow_two] <;>
    norm_num

theorem hmapB : wABC.map (hFun (fitA (-4) 0 4) (fitW0 4) (fitQ (-4) 4) (fitPhi (-4) 0)) =
    [⟨-12/25, 16/25⟩, ⟨0, 1/2⟩, ⟨20/169, 48/169⟩] := by
  rw [fitA_one, fitW0_two, fitQ_B, fitPhi_A, wABC]
  simp only [List.map_cons, List.map_nil]
  rw [hB1, hB2, hB3]

theorem candErrB : candErr respB wABC (-4) 0 (-4) 4 = some (1/4) := by
  rw [candErr, hmapB]
  norm_num [bsub, respB, sumSq]

theorem pairStepB : pairStep respB wABC [0, 1, 2] ([], []) (0, 1) =
    some ([(-4, 0, -4, 4)], [1/4]) := by
  rw [pairStep, pairDataB]
  simp only [Option.bind_eq_bind, Option.some_bind]
  rw [if_pos (show (0 : ℝ) < pairDenom ⟨1, 2, -12/25, 0, 16/25, 1/2⟩ by norm_num [pairDenom])]
  rw [pairCoeffsB]
  norm_num [candErrB]

theorem aMatB : aMatEVec respB wABC (sortIdx respB) 2 = some ([(-4, 0, -4, 4)], [1/4]) := by
  rw [respB_sort, aMatEVec, show pairIdxList 2 = [(0, 1)] by decide]
  simp [List.foldlM_cons, List.foldlM_nil, pairStepB]

theorem wOf_single (q : ℝ × ℝ × ℝ × ℝ) (e : ℝ) (he : e ≠ 0) :
    awOf [q] [e] = q.1 ∧ bwOf [q] [e] = q.2.1 ∧
      cwOf [q] [e] = q.2.2.1 ∧ dwOf [q] [e] = q.2.2.2 := by
  have hw : (1 / e) ^ 4 ≠ 0 := pow_ne_zero 4 (one_div_ne_zero he)
  refine ⟨?_, ?_, ?_, ?_⟩ <;>
    simp only [awOf, bwOf, cwOf, dwOf, weightVec, List.map_cons, List.map_nil] <;>
    rw [wavg_single _ _ hw]

theorem HfitB : HfitOf [(-4, 0, -4, 4)] [1/4] wABC =
    [⟨-12/25, 16/25⟩, ⟨0, 1/2⟩, ⟨20/169, 48/169⟩] := by
  obtain ⟨ha, hb, hc, hd⟩ := wOf_single (-4, 0, -4, 4) (1/4) (by norm_num)
  rw [HfitOf, AfitOf, w0fitOf, QfitOf, phifitOf, ha, hb, hc, hd]
  exact hmapB

theorem diffB : bsubC respB (HfitOf [(-4, 0, -4, 4)] [1/4] wABC) =
    some [0, 0, ⟨-5/26, -6/13⟩] := by
  rw [HfitB]
  rw [show bsubC respB [⟨-12/25, 16/25⟩, ⟨0, 1/2⟩, ⟨20/169, 48/169⟩] =
    some (List.zipWith (fun x y => x - y) respB
      [⟨-12/25, 16/25⟩, ⟨0, 1/2⟩, ⟨20/169, 48/169⟩]) by simp [bsubC, respB]]
  rw [respB]
  simp only [List.zipWith_cons_cons, List.zipWith_nil_right, Option.some.injEq]
  refine List.cons_eq_cons.mpr ⟨?_, List.cons_eq_cons.mpr ⟨?_, List.cons_eq_cons.mpr ⟨?_, rfl⟩⟩⟩ <;>
    rw [Complex.ext_iff] <;>
    constructor <;>
    simp [Complex.sub_re, Complex.sub_im] <;>
    norm_num

theorem absB : respB.map Complex.abs = [4/5, 1/2, 5/26] := by
  rw [respB]
  simp only [List.map_cons, List.map_nil]
  rw [cabs_eval (-12/25) (16/25) (4/5) (by norm_num) (by norm_num),
    cabs_eval 0 (1/2) (1/2) (by norm_num) (by norm_num),
    cabs_eval (-25/338) (-30/169) (5/26) (by norm_num) (by norm_num)]

theorem absDiffB : ([0, 0, (⟨-5/26, -6/13⟩ : ℂ)].map Complex.abs) = [0, 0, 1/2] := by
  simp only [List.map_cons, List.map_nil, map_zero]
  rw [cabs_eval (-5/26) (-6/13) (1/2) (by norm_num) (by norm_num)]

theorem stdB_m : npStd [4/5, 1/2, 5/26] = Real.sqrt (4681/76050) := by
  refine npStd_three _ _ _ (97/195) _ ?_ (by norm_num)
  rw [npMean_three]
  norm_num

theorem stdB_r : npStd [(0 : ℝ), 0, 1/2] = Real.sqrt (1/18) := by
  refine npStd_three _ _ _ (1/6) _ ?_ (by norm_num)
  rw [npMean_three]
  norm_num

theorem ratioB : plausRatio respB [0, 0, ⟨-5/26, -6/13⟩] < 1.2 := by
  rw [plausRatio, absB, absDiffB, stdB_m, stdB_r]
  exact ratio_lt_of_var _ _ (by norm_num) (by norm_num) (by norm_num)

theorem absW : (wABC.map Complex.ofReal).map Complex.abs = [1, 2, 3] := by
  rw [wABC]
  simp only [List.map_cons, List.map_nil, Complex.abs_ofReal]
  norm_num

theorem fallbackSwappedB : fallbackSwapped respB wABC = some ⟨1/100, ⟨0, 1/2⟩, 200, 0⟩ := by
  obtain ⟨wm, rm, hwm, hrm, heq⟩ := sho_fast_guess_eq (wABC.map Complex.ofReal) respB
    qual_factor_default (by norm_num [respB, wABC]) (by norm_num [wABC])
  have h1 : some (⟨0, 1/2⟩ : ℂ) = some wm := hwm
  have h2 : some (Complex.ofReal 2) = some rm := hrm
  rw [fallbackSwapped, heq, ← Option.some.inj h1, ← Option.some.inj h2]
  rw [absW, npMean_three, qual_factor_default, Complex.arg_ofReal_of_nonneg (by norm_num)]
  norm_num

theorem unitB : unit_function respB (some wABC) 2 = some ⟨1/100, ⟨0, 1/2⟩, 200, 0⟩ := by
  rw [← fallbackSwappedB]
  simp only [unit_function, Option.getD_some, aMatB, Option.bind_eq_bind, Option.some_bind]
  rw [if_pos (show 0 < ([(-4, 0, -4, 4)] : List (ℝ × ℝ × ℝ × ℝ)).length by norm_num)]
  rw [diffB]
  simp only [Option.some_bind]
  rw [if_pos ratioB]

/-- Claim C1: the implausible-fit branch calls `sho_fast_guess` with its
arguments swapped (`sho_fast_guess(w_vec, resp_vec)`), so on `respB` — where
the plausibility check fails — `estimate` returns the mean of the *frequency*
magnitudes over 200 as amplitude and the *response sample* `resp_vec[1] = i/2`
in the frequency slot, instead of the fallback values the specification
describes (the frequency `freq_vec[1] = 2` and amplitude
`mean(|resp_vec|)/200`). -/
theorem C1_fallback_swaps_arguments :
    unit_function respB (some wABC) 2 = some ⟨1/100, ⟨0, 1/2⟩, 200, 0⟩ ∧
    unit_function respB (some wABC) 2 = fallbackSwapped respB wABC ∧
    ((⟨0, 1/2⟩ : ℂ) ≠ ((2 : ℝ) : ℂ) ∧
      (1/100 : ℝ) ≠ npMean (respB.map Complex.abs) / qual_factor_default) := by
  refine ⟨unitB, ?_, ?_, ?_⟩
  · rw [unitB, fallbackSwappedB]
  · intro h
    rw [Complex.ext_iff] at h
    have h2 := h.2
    norm_num [Complex.ofReal_im] at h2
  · rw [absB, npMean_three, qual_factor_default]
    norm_num

/-! ### Evaluation on `respC`: plausibility check passes, negative quality factor -/

theorem respC_sort : sortIdx respC = [0, 1, 2] := by
  refine sortIdx_three respC rfl ?_ ?_
  · rw [show respKey respC 1 = Complex.abs ⟨0, -1/2⟩ from rfl,
      show respKey respC 0 = Complex.abs ⟨-12/25, -16/25⟩ from rfl]
    exact cmk_lt_cmk _ _ _ _ (by norm_num)
  · rw [show respKey respC 2 = Complex.abs ⟨35/338, -42/169⟩ from rfl,
      show respKey respC 1 = Complex.abs ⟨0, -1/2⟩ from rfl]
    exact cmk_lt_cmk _ _ _ _ (by norm_num)

theorem pairDataC : pairData respC wABC [0, 1, 2] 0 1 =
    some ⟨1, 2, -12/25, 0, -16/25, -1/2⟩ := rfl

theorem pairCoeffsC : pairCoeffs ⟨1, 2, -12/25, 0, -16/25, -1/2⟩ = (-4, 0, 4, 4) := by
  rw [pairCoeffs]
  norm_num [pairDenom]

theorem fitQ_C : fitQ 4 4 = -(1/2) := by
  rw [fitQ, sqrt_four]
  norm_num

theorem hC1 : hFun 1 2 (-(1/2)) 0 1 = ⟨-12/25, -16/25⟩ := by
  rw [hFun]
  simp only [Complex.ofReal_zero, mul_zero, Complex.exp_zero, mul_one, Complex.ofReal_one,
    Complex.ofReal_ofNat, one_mul]
  rw [Complex.ext_iff]
  constructor <;>
    simp [Complex.div_re, Complex.div_im, Complex.normSq_apply, Complex.mul_re, Complex.mul_im,
      Complex.sub_re, Complex.sub_im, Complex.I_re, Complex.I_im, Complex.neg_re,
      Complex.neg_im, pow_two] <;>
    norm_num

theorem hC2 : hFun 1 2 (-(1/2)) 0 2 = ⟨0, -1/2⟩ := by
  rw [hFun]
  simp only [Complex.ofReal_zero, mul_zero, Complex.exp_zero, mul_one, Complex.ofReal_one,
    Complex.ofReal_ofNat, one_mul]
  rw [Complex.ext_iff]
  constructor <;>
    simp [Complex.div_re, Complex.div_im, Complex.normSq_apply, Complex.mul_re, Complex.mul_im,
      Complex.sub_re, Complex.sub_im, Complex.I_re, Complex.I_im, Complex.neg_re,
      Complex.neg_im, pow_two] <;>
    norm_num

theorem hC3 : hFun 1 2 (-(1/2)) 0 3 = ⟨20/169, -48/169⟩ := by
  rw [hFun]
  simp only [Complex.ofReal_zero, mul_zero, Complex.exp_zero, mul_one, Complex.ofReal_one,
    Complex.ofReal_ofNat, one_mul]
  rw [Complex.ext_iff]
  constructor <;>
    simp [Complex.div_re, Complex.div_im, Complex.normSq_apply, Complex.mul_re, Complex.mul_im,
      Complex.sub_re, Complex.sub_im, Complex.I_re, Complex.I_im, Complex.neg_re,
      Complex.neg_im, pow_two] <;>
    norm_num

theorem hmapC : wABC.map (hFun (fitA (-4) 0 4) (fitW0 4) (fitQ 4 4) (fitPhi (-4) 0)) =
    [⟨-12/25, -16/25⟩, ⟨0, -1/2⟩, ⟨20/169, -48/169⟩] := by
  rw [fitA_one, fitW0_two, fitQ_C, fitPhi_A, wABC]
  simp only [List.map_cons, List.map_nil]
  rw [hC1, hC2, hC3]

theorem candErrC : candErr respC wABC (-4) 0 4 4 = some (1/676) := by
  rw [candErr, hmapC]
  norm_num [bsub, respC, sumSq]

theorem pairStepC : pairStep respC wABC [0, 1, 2] ([], []) (0, 1) =
    some ([(-4, 0, 4, 4)], [1/676]) := by
  rw [pairStep, pairDataC]
  simp only [Option.bind_eq_bind, Option.some_bind]
  rw [if_pos (show (0 : ℝ) < pairDenom ⟨1, 2, -12/25, 0, -16/25, -1/2⟩
    by norm_num [pairDenom])]
  rw [pairCoeffsC]
  norm_num [candErrC]

theorem aMatC : aMatEVec respC wABC (sortIdx respC) 2 = some ([(-4, 0, 4, 4)], [1/676]) := by
  rw [respC_sort, aMatEVec, show pairIdxList 2 = [(0, 1)] by decide]
  simp [List.foldlM_cons, List.foldlM_nil, pairStepC]

theorem HfitC : HfitOf [(-4, 0, 4, 4)] [1/676] wABC =
    [⟨-12/25, -16/25⟩, ⟨0, -1/2⟩, ⟨20/169, -48/169⟩] := by
  obtain ⟨ha, hb, hc, hd⟩ := wOf_single (-4, 0, 4, 4) (1/676) (by norm_num)
  rw [HfitOf, AfitOf, w0fitOf, QfitOf, phifitOf, ha, hb, hc, hd]
  exact hmapC

theorem diffC : bsubC respC (HfitOf [(-4, 0, 4, 4)] [1/676] wABC) =
    some [0, 0, ⟨-5/338, 6/169⟩] := by
  rw [HfitC]
  rw [show bsubC respC [⟨-12/25, -16/25⟩, ⟨0, -1/2⟩, ⟨20/169, -48/169⟩] =
    some (List.zipWith (fun x y => x - y) respC
      [⟨-12/25, -16/25⟩, ⟨0, -1/2⟩, ⟨20/169, -48/169⟩]) by simp [bsubC, respC]]
  rw [respC]
  simp only [List.zipWith_cons_cons, List.zipWith_nil_right, Option.some.injEq]
  refine List.cons_eq_cons.mpr ⟨?_, List.cons_eq_cons.mpr ⟨?_, List.cons_eq_cons.mpr ⟨?_, rfl⟩⟩⟩ <;>
    rw [Complex.ext_iff] <;>
    constructor <;>
    simp [Complex.sub_re, Complex.sub_im] <;>
    norm_num

theorem absC : respC.map Complex.abs = [4/5, 1/2, 7/26] := by
  rw [respC]
  simp only [List.map_cons, List.map_nil]
  rw [cabs_eval (-12/25) (-16/25) (4/5) (by norm_num) (by norm_num),
    cabs_eval 0 (-1/2) (1/2) (by norm_num) (by norm_num),
    cabs_eval (35/338) (-42/169) (7/26) (by norm_num) (by norm_num)]

theorem absDiffC : ([0, 0, (⟨-5/338, 6/169⟩ : ℂ)].map Complex.abs) = [0, 0, 1/26] := by
  simp only [List.map_cons, List.map_nil, map_zero]
  rw [cabs_eval (-5/338) (6/169) (1/26) (by norm_num) (by norm_num)]

theorem stdC_m : npStd [4/5, 1/2, 7/26] = Real.sqrt (399/8450) := by
  refine npStd_three _ _ _ (34/65) _ ?_ (by norm_num)
  rw [npMean_three]
  norm_num

theorem stdC_r : npStd [(0 : ℝ), 0, 1/26] = Real.sqrt (1/3042) := by
  refine npStd_three _ _ _ (1/78) _ ?_ (by norm_num)
  rw [npMean_three]
  norm_num

theorem ratioC : ¬ (plausRatio respC [0, 0, ⟨-5/338, 6/169⟩] < 1.2) := by
  rw [plausRatio, absC, absDiffC, stdC_m, stdC_r]
  exact ratio_not_lt_of_var _ _ (by norm_num) (by norm_num)

theorem npMin_wABC : npMin wABC = some 1 := by
  rw [wABC, npMin]
  simp only [List.foldl_cons, List.foldl_nil]
  norm_num [min_def]

theorem npMax_wABC : npMax wABC = some 3 := by
  rw [wABC, npMax]
  simp only [List.foldl_cons, List.foldl_nil]
  norm_num [max_def]

theorem w0fitC : w0fitOf [(-4, 0, 4, 4)] [1/676] = 2 := by
  obtain ⟨-, -, -, hd⟩ := wOf_single (-4, 0, 4, 4) (1/676) (by norm_num)
  rw [w0fitOf, hd, fitW0_two]

theorem unitC : unit_function respC (some wABC) 2 =
    some ⟨1, ((2 : ℝ) : ℂ), -(1/2), 0⟩ := by
  obtain ⟨ha, hb, hc, hd⟩ := wOf_single (-4, 0, 4, 4) (1/676) (by norm_num)
  simp only [unit_function, Option.getD_some, aMatC, Option.bind_eq_bind, Option.some_bind]
  rw [if_pos (show 0 < ([(-4, 0, 4, 4)] : List (ℝ × ℝ × ℝ × ℝ)).length by norm_num)]
  rw [diffC]
  simp only [Option.some_bind]
  rw [if_neg ratioC, npMin_wABC, npMax_wABC]
  simp only [Option.some_bind]
  rw [if_neg (show ¬ (w0fitOf [(-4, 0, 4, 4)] [1/676] < 1) by rw [w0fitC]; norm_num)]
  rw [if_neg (show ¬ ((3 : ℝ) < w0fitOf [(-4, 0, 4, 4)] [1/676]) by rw [w0fitC]; norm_num)]
  rw [show AfitOf [(-4, 0, 4, 4)] [1/676] = 1 by rw [AfitOf, ha, hb, hd, fitA_one]]
  rw [show QfitOf [(-4, 0, 4, 4)] [1/676] = -(1/2) by rw [QfitOf, hc, hd, fitQ_C]]
  rw [show phifitOf [(-4, 0, 4, 4)] [1/676] = 0 by rw [phifitOf, ha, hb, fitPhi_A]]
  rw [w0fitC]
  rfl

/-- Claim C10: the weighted-fit path applies no sign check to the quality
factor: it returns `Q_fit = -sqrt(d_w)/c_w`, and on `respC` — a well-formed
input on which the plausibility check passes and the weighted `c` coefficient
is positive (`c_w = 4`) — `estimate` returns the negative quality factor
`-1/2`. -/
theorem C10_negative_quality_factor :
    unit_function respC (some wABC) 2 = some ⟨1, ((2 : ℝ) : ℂ), -(1/2), 0⟩ ∧
    QfitOf [(-4, 0, 4, 4)] [1/676] = -Real.sqrt 4 / 4 ∧
    (-(1/2) : ℝ) < 0 := by
  obtain ⟨-, -, hc, hd⟩ := wOf_single (-4, 0, 4, 4) (1/676) (by norm_num)
  refine ⟨unitC, ?_, by norm_num⟩
  rw [QfitOf, hc, hd, fitQ]

/-- Witness for C5 at the concrete input `respC`, `wABC`, `num_points = 2`:
the single accepted candidate's residual error is `1/676 ≠ 0`, so the
non-degeneracy hypothesis holds with a nonempty candidate set. -/
theorem C5_weighted_freq_in_range_witness :
    ∃ r, unit_function respC (some wABC) 2 = some r ∧
      (unit_function respC (some wABC) 2 = fallbackSwapped respC wABC ∨
       unit_function respC (some wABC) 2 = fallbackOrdered respC wABC ∨
       ∃ mn mx, npMin wABC = some mn ∧ npMax wABC = some mx ∧
         ∃ w0 : ℝ, r.frequency = (w0 : ℂ) ∧ mn ≤ w0 ∧ w0 ≤ mx) :=
  C5_weighted_freq_in_range respC wABC 2 (by norm_num [respC]) (by norm_num [respC, wABC])
    (by norm_num [respC])
    (by
      intro am ev h
      rw [aMatC] at h
      simp only [Option.some.injEq, Prod.mk.injEq] at h
      intro e he
      rw [← h.2] at he
      simp only [List.mem_singleton] at he
      rw [he]
      norm_num)
